import Mathlib

/-!
Shallow embedding of `src/scripts/main.js` (howcanwehelp): a theme manager,
a services catalog renderer, and the associated interaction handlers.
JavaScript objects are modelled as ordered association lists, JS `null` /
`undefined` as `Option`, and JS string truthiness (`""` is falsy) explicitly.
-/

/-- A sub-item of a service (`{ name, description }`). -/
structure SubItem where
  name : String
  description : String
deriving DecidableEq

/-- A service record from the catalog JSON
    (`{ name, description?, img?, sub_items? }`). -/
structure ServiceRecord where
  name : String
  description : Option String := none
  img : Option String := none
  sub_items : Option (List SubItem) := none
deriving DecidableEq

/-- A category's value in the catalog object: either an array of service
    records or a non-array JSON value (which `renderServices` skips via its
    `Array.isArray` check). -/
inductive CatValue where
  | arr (records : List ServiceRecord)
  | nonArray
deriving DecidableEq

/-- The services catalog: a JS object, i.e. an ordered mapping from category
    name to value, in `Object.entries` iteration order. -/
abbrev Catalog := List (String × CatValue)

/-! ## ThemeManager -/

/-- A theme-selection control (`.theme-btn` element): its element id and
    whether it currently carries the `active` class. -/
structure ThemeBtn where
  id : String
  active : Bool
deriving DecidableEq

/-- The theme→element-id table in `updateActiveButton`
    (`{ light: 'lightMode', dark: 'darkMode' }`); object lookup yields
    `undefined` for other keys. -/
def themeMap : String → Option String
  | "light" => some "lightMode"
  | "dark" => some "darkMode"
  | _ => none

/-- `btn.classList.remove('active')` applied to every `.theme-btn`. -/
def clearActive (btns : List ThemeBtn) : List ThemeBtn :=
  btns.map (fun b => { b with active := false })

/-- `document.getElementById(tid).classList.add('active')`: the first control
    with the given id receives the class; if none exists this is a no-op
    (the `if (activeButton)` guard). -/
def activateFirst (tid : String) : List ThemeBtn → List ThemeBtn
  | [] => []
  | b :: t => if b.id = tid then { b with active := true } :: t else b :: activateFirst tid t

/-- `ThemeManager.updateActiveButton`: removes `active` from every theme
    button, then adds it to the button mapped from the current theme, when
    the mapping and the button exist. -/
def updateActiveButton (theme : String) (btns : List ThemeBtn) : List ThemeBtn :=
  let cleared := clearActive btns
  match themeMap theme with
  | some tid => activateFirst tid cleared
  | none => cleared

/-- The mutable state `ThemeManager` works on: its `currentTheme` field, the
    document body's `data-theme` attribute, the persisted
    `localStorage['preferred-theme']` value (`none` = absent), and the theme
    buttons. -/
structure ThemeState where
  currentTheme : String
  bodyTheme : String
  stored : Option String
  buttons : List ThemeBtn
deriving DecidableEq

/-- `ThemeManager.setTheme`: guarded by `['light','dark'].includes(theme)`;
    inside the guard it sets the field, the body attribute, the stored
    preference, and refreshes the active button. -/
def setTheme (theme : String) (st : ThemeState) : ThemeState :=
  if theme = "light" ∨ theme = "dark" then
    { currentTheme := theme
      bodyTheme := theme
      stored := some theme
      buttons := updateActiveButton theme st.buttons }
  else st

/-- `ThemeManager.getSystemTheme`: `matchMedia('(prefers-color-scheme: dark)')`
    reduced to a boolean signal. -/
def getSystemTheme (osDark : Bool) : String :=
  if osDark then "dark" else "light"

/-- JS `x || y` for `x : string | null`: the left operand wins exactly when it
    is truthy, and the empty string is falsy. -/
def jsOrString (x : Option String) (y : String) : String :=
  match x with
  | some s => if s = "" then y else s
  | none => y

/-- The initial-theme resolution in the `ThemeManager` constructor:
    `this.getStoredTheme() || this.getSystemTheme()`. -/
def resolveInitial (stored : Option String) (osDark : Bool) : String :=
  jsOrString stored (getSystemTheme osDark)

/-! ## ServicesManager: card markup -/

/-- The provider image table in `getProviderImage`, with its
    `|| './assets/img/general.jpeg'` default. -/
def getProviderImage (category : String) : String :=
  if category = "Bee" then "./assets/img/basil.jpeg"
  else if category = "Onyx" then "./assets/img/onyx.jpeg"
  else if category = "General" then "./assets/img/general.jpeg"
  else if category = "Searching" then "./assets/img/searching.jpeg"
  else "./assets/img/general.jpeg"

/-- The provider name table in `getProviderName`, defaulting to the category
    itself (`nameMap[category] || category`). -/
def getProviderName (category : String) : String :=
  if category = "Bee" then "Basil"
  else if category = "Onyx" then "Onyx"
  else if category = "General" then "General"
  else if category = "Searching" then "Looking for"
  else category

/-- The provider message table in `getProviderMessage`, with its
    `|| 'We can help you!'` default. -/
def getProviderMessage (category : String) : String :=
  if category = "Bee" then "Basil can help you!"
  else if category = "Onyx" then "Onyx can help you!"
  else if category = "General" then "We can help you!"
  else if category = "Searching" then "We're searching for this!"
  else "We can help you!"

/-- One character of `escapeHtml`: setting `textContent` and reading back
    `innerHTML` escapes exactly the HTML text-node metacharacters. -/
def escapeChar (c : Char) : String :=
  if c = '&' then "&amp;"
  else if c = '<' then "&lt;"
  else if c = '>' then "&gt;"
  else c.toString

/-- `ServicesManager.escapeHtml` (textContent → innerHTML round-trip): escapes
    `&`, `<`, `>`; it does NOT escape quote characters. -/
def escapeHtml (s : String) : String :=
  s.data.foldl (fun acc c => acc ++ escapeChar c) ""

/-- JS `String.prototype.startsWith`, on the character-list view. -/
def strStartsWith (s pre : String) : Bool :=
  pre.data.isPrefixOf s.data

/-- The image-path normalization in `createServiceCard`: when `service.img`
    is truthy and starts with neither `./` nor `http`, a single leading `/`
    is stripped and `./` is prepended. -/
def normalizeImagePath (img : Option String) : Option String :=
  match img with
  | none => none
  | some s =>
    if s = "" then some s
    else if strStartsWith s "./" ∨ strStartsWith s "http" then some s
    else some ("./" ++ (if strStartsWith s "/" then s.drop 1 else s))

/-- `ServicesManager.createSubItemsDropdown` as the markup string it returns;
    `generateId()`'s random id is passed in as `dropdownId`. -/
def createSubItemsDropdown (service : ServiceRecord) (dropdownId : String) : String :=
  match service.sub_items with
  | none => ""
  | some items =>
    if items.isEmpty then ""
    else
      let options := String.join (items.map (fun item =>
        "<option value=\"" ++ escapeHtml item.name ++ "\">" ++
          escapeHtml item.name ++ "</option>"))
      "<div class=\"sub-items-dropdown\"><label for=\"subItems_" ++ dropdownId ++
        "\" class=\"dropdown-label\">Choose a type:</label><select id=\"subItems_" ++
        dropdownId ++ "\" class=\"dropdown-select\" data-dropdown-id=\"" ++ dropdownId ++
        "\"><option value=\"\">Select an option...</option>" ++ options ++
        "</select><div class=\"sub-item-drawer\" id=\"drawer_" ++ dropdownId ++
        "\" style=\"display: none;\"><div class=\"sub-item-content\">" ++
        "<h4 class=\"sub-item-title\"></h4><p class=\"sub-item-description\"></p>" ++
        "</div></div></div>"

/-- The `card.innerHTML` template of `ServicesManager.createServiceCard`
    (inter-tag pretty-printing whitespace elided; every tag, attribute and
    interpolation is kept, including the raw `${service.name}` in the image
    `alt` attribute). -/
def cardHtml (service : ServiceRecord) (category : String) (dropdownId : String) : String :=
  let providerImage := getProviderImage category
  let providerName := getProviderName category
  let providerMessage := getProviderMessage category
  (match normalizeImagePath service.img with
   | some p =>
     if p = "" then ""
     else "<img src=\"" ++ p ++ "\" alt=\"" ++ service.name ++
       "\" class=\"service-card-image\" loading=\"lazy\">"
   | none => "") ++
  "<div class=\"service-card-content\"><div class=\"service-card-header\">" ++
  "<h3 class=\"service-card-title\">" ++ escapeHtml service.name ++ "</h3>" ++
  "<div class=\"service-provider-container\"><img src=\"" ++ providerImage ++
  "\" alt=\"" ++ providerName ++ "\" class=\"service-provider\" loading=\"lazy\" data-message=\"" ++
  escapeHtml providerMessage ++ "\"><div class=\"provider-message\">" ++
  escapeHtml providerMessage ++ "</div></div></div>" ++
  (match service.description with
   | some d =>
     if d = "" then ""
     else "<p class=\"service-card-description\">" ++ escapeHtml d ++ "</p>"
   | none => "") ++
  createSubItemsDropdown service dropdownId ++
  "</div>"

/-- Substring test on character lists (no library `containsSubstr` needed):
    `hasSub needle hay` holds when `needle` occurs contiguously in `hay`. -/
def hasSub : List Char → List Char → Bool
  | needle, [] => needle.isEmpty
  | needle, c :: t => needle.isPrefixOf (c :: t) || hasSub needle t

/-! ## ServicesManager: rendering -/

/-- One `{ service, category }` pair pushed by the grouping loop. -/
abbrev Entry := ServiceRecord × String

/-- The inner `serviceList.forEach` of `renderServices`: pushes each record
    into the searching accumulator when its category is the reserved key
    `Searching`, and into the main accumulator otherwise. -/
def pushEntries (category : String) (l : List ServiceRecord)
    (acc : List Entry × List Entry) : List Entry × List Entry :=
  l.foldl (fun acc2 svc =>
    if category = "Searching" then (acc2.1, acc2.2 ++ [(svc, category)])
    else (acc2.1 ++ [(svc, category)], acc2.2)) acc

/-- The `Object.entries(this.services).forEach` grouping loop of
    `renderServices`: non-array category values are skipped by the
    `Array.isArray` guard. Returns `(mainServices, searchingServices)`. -/
def splitServices (c : Catalog) : List Entry × List Entry :=
  c.foldl (fun acc p =>
    match p.2 with
    | .arr l => pushEntries p.1 l acc
    | .nonArray => acc) ([], [])

/-- All records present in the catalog, tagged with their category, in
    catalog iteration order (records under non-array values do not exist). -/
def allEntries (c : Catalog) : List Entry :=
  c.foldr (fun p rest =>
    (match p.2 with
     | .arr l => l.map (fun svc => (svc, p.1))
     | .nonArray => []) ++ rest) []

/-- One node appended to the grid by `renderServices`: a service card or the
    single section-break element. -/
inductive RenderItem where
  | card (service : ServiceRecord) (category : String)
  | sectionBreak
deriving DecidableEq

/-- `createServiceCard` viewed at the grid-structure level. -/
def entryCard (e : Entry) : RenderItem :=
  RenderItem.card e.1 e.2

/-- The sort comparator `(a, b) => a.service.name.localeCompare(b.service.name)`
    of `renderServices`, abstracted over the locale-aware order `le`
    (`le x y` means `x.localeCompare(y) <= 0`). -/
def nameLE (le : String → String → Bool) (a b : Entry) : Bool :=
  le a.1.name b.1.name

/-- The main group as rendered: `mainServices.sort(...)`. JS `Array.sort` is
    stable, modelled by `List.mergeSort`. -/
def mainGroup (le : String → String → Bool) (c : Catalog) : List Entry :=
  (splitServices c).1.mergeSort (nameLE le)

/-- The searching group as rendered: `searchingServices.sort(...)`. -/
def searchingGroup (le : String → String → Bool) (c : Catalog) : List Entry :=
  (splitServices c).2.mergeSort (nameLE le)

/-- The node sequence `renderServices` appends to the grid: sorted main
    cards, then — only when `searchingServices.length > 0` — the section
    break followed by the sorted searching cards. -/
def renderList (le : String → String → Bool) (c : Catalog) : List RenderItem :=
  (mainGroup le c).map entryCard ++
    (if (splitServices c).2.length > 0 then
      RenderItem.sectionBreak :: (searchingGroup le c).map entryCard
    else [])

/-- The entries of the rendered cards, in rendered order (section breaks are
    not cards). -/
def cardsOf (items : List RenderItem) : List Entry :=
  items.filterMap (fun it =>
    match it with
    | RenderItem.card s cat => some (s, cat)
    | RenderItem.sectionBreak => none)

/-- Whether a rendered node is the section-break marker. -/
def isBreak : RenderItem → Bool
  | RenderItem.sectionBreak => true
  | RenderItem.card _ _ => false

/-- The grid's terminal content after one load-render cycle. -/
inductive GridState where
  | emptyState
  | errorState
  | content (items : List RenderItem)
deriving DecidableEq

/-- `renderServices` at the grid level: the `Object.keys(...).length === 0`
    check selects the empty-state placeholder, otherwise the card list is
    rendered (the grid was cleared first either way). -/
def renderOutcome (le : String → String → Bool) (c : Catalog) : GridState :=
  if c.length = 0 then GridState.emptyState else GridState.content (renderList le c)

/-- Cards present in a grid state (placeholders contain none). -/
def cardCount : GridState → Nat
  | GridState.content items => items.countP (fun it => !(isBreak it))
  | GridState.emptyState => 0
  | GridState.errorState => 0

/-- The page state `ServicesManager.init` leaves behind. -/
structure UIState where
  grid : GridState
  loadingDismissed : Bool
deriving DecidableEq

/-- `ServicesManager.init`: `try { load; render; hideLoading } catch
    { showError }`, where `showError` itself calls `hideLoading` before
    writing the error placeholder. A load failure (transport error, non-ok
    status, or JSON parse failure of the body) is the `Except.error` case. -/
def initRun (le : String → String → Bool) (load : Except Unit Catalog) : UIState :=
  match load with
  | Except.ok cat => { grid := renderOutcome le cat, loadingDismissed := true }
  | Except.error _ => { grid := GridState.errorState, loadingDismissed := true }

/-! ## ServicesManager: sub-item drawer lookup -/

/-- The catalog re-scan in `addDropdownHandlers`' change handler: for every
    record (in every array-valued category) whose name matches the card title
    and whose `sub_items` is truthy, `selectedSubItem` is overwritten with
    `service.sub_items.find(item => item.name === selectedValue)` — so the
    last such record wins. -/
def findSelectedSubItem (c : Catalog) (serviceName selectedValue : String) :
    Option SubItem :=
  c.foldl (fun acc p =>
    match p.2 with
    | .arr l =>
      l.foldl (fun acc2 svc =>
        if svc.name = serviceName ∧ svc.sub_items.isSome then
          (svc.sub_items.getD []).find? (fun item => item.name == selectedValue)
        else acc2) acc
    | .nonArray => acc) none

/-- The drawer outcome of the change handler. -/
inductive DrawerResult where
  | populated (title description : String)
  | hidden
deriving DecidableEq

/-- The tail of the change handler: `if (selectedValue && selectedSubItem)`
    populates the drawer with the sub-item's name and description, else the
    drawer is hidden. -/
def dropdownChange (c : Catalog) (serviceName selectedValue : String) : DrawerResult :=
  match findSelectedSubItem c serviceName selectedValue with
  | some item =>
    if selectedValue ≠ "" then DrawerResult.populated item.name item.description
    else DrawerResult.hidden
  | none => DrawerResult.hidden

/-- The records qualifying in the re-scan: same name as the card title and
    `sub_items` present, in catalog iteration order. -/
def qualifying (c : Catalog) (serviceName : String) : List Entry :=
  (allEntries c).filter (fun e => e.1.name == serviceName && e.1.sub_items.isSome)

/-- Code-point lexicographic order on character lists: a concrete total,
    transitive comparator used to instantiate the abstract locale-aware
    order in witnesses (on ASCII, `localeCompare` agrees with it). -/
def charLE : List Char → List Char → Bool
  | [], _ => true
  | _ :: _, [] => false
  | a :: s, b :: t =>
    if a.toNat < b.toNat then true
    else if b.toNat < a.toNat then false
    else charLE s t

/-- `charLE` on strings. -/
def strLE (a b : String) : Bool :=
  charLE a.data b.data

/-! ## Provider-bubble interaction (`addProviderBubbleHandlers`) -/

/-- The CSS classes tracked on one provider message bubble. -/
structure Bubble where
  flowIn : Bool
  flowOut : Bool
  shown : Bool
deriving DecidableEq

/-- A bubble with none of the classes. -/
def initBubble : Bubble :=
  { flowIn := false, flowOut := false, shown := false }

/-- A pending `setTimeout` callback of `showProviderMessage` /
    `hideProviderMessage`; both use the same 400ms delay, so pending
    callbacks fire in FIFO order. -/
inductive TimerAct where
  | showFire (i : Nat)
  | hideFire (i : Nat)
deriving DecidableEq

/-- The bubble-relevant page state: the number of bubbles on the page, each
    bubble's classes, the shared `activeMessage` reference, and the queue of
    pending timer callbacks. -/
structure BubbleSys where
  n : Nat
  bubbles : Nat → Bubble
  active : Option Nat
  timers : List TimerAct

/-- Pointwise update of bubble `i`. -/
def updB (i : Nat) (f : Bubble → Bubble) (g : Nat → Bubble) : Nat → Bubble :=
  fun j => if j = i then f (g j) else g j

/-- `showProviderMessage(message)`: remove `flow-in`, add `flow-out`, and
    schedule the 400ms callback that removes `flow-out` and adds `show`. -/
def showMsg (i : Nat) (s : BubbleSys) : BubbleSys :=
  { s with
    bubbles := updB i (fun b => { b with flowIn := false, flowOut := true }) s.bubbles
    timers := s.timers ++ [TimerAct.showFire i] }

/-- `hideProviderMessage(message)`: remove `show`, add `flow-in`, and
    schedule the 400ms callback that removes `flow-in`. -/
def hideMsg (i : Nat) (s : BubbleSys) : BubbleSys :=
  { s with
    bubbles := updB i (fun b => { b with shown := false, flowIn := true }) s.bubbles
    timers := s.timers ++ [TimerAct.hideFire i] }

/-- Fire the oldest pending timer callback, if any. -/
def fireOne (s : BubbleSys) : BubbleSys :=
  match s.timers with
  | [] => s
  | TimerAct.showFire i :: rest =>
    { s with
      bubbles := updB i (fun b => { b with flowOut := false, shown := true }) s.bubbles
      timers := rest }
  | TimerAct.hideFire i :: rest =>
    { s with
      bubbles := updB i (fun b => { b with flowIn := false }) s.bubbles
      timers := rest }

/-- The provider-image click handler: close the other active message if any,
    then toggle the clicked one, updating the shared `activeMessage`. -/
def clickBubble (i : Nat) (s : BubbleSys) : BubbleSys :=
  let s1 :=
    match s.active with
    | some j => if j = i then s else hideMsg j s
    | none => s
  if s1.active = some i then { hideMsg i s1 with active := none }
  else { showMsg i s1 with active := some i }

/-- The document-level click handler: hide the active message, if any. -/
def outsideClick (s : BubbleSys) : BubbleSys :=
  match s.active with
  | some j => { hideMsg j s with active := none }
  | none => s

/-- An event of the bubble machine: a provider-image click, a click outside
    every bubble, or the next pending 400ms timer callback firing. -/
inductive BEvent where
  | click (i : Nat)
  | outside
  | fire
deriving DecidableEq

/-- One event step. -/
def bubbleStep (s : BubbleSys) : BEvent → BubbleSys
  | BEvent.click i => clickBubble i s
  | BEvent.outside => outsideClick s
  | BEvent.fire => fireOne s

/-- Run a sequence of events. -/
def runBubbles (s : BubbleSys) (evs : List BEvent) : BubbleSys :=
  evs.foldl bubbleStep s

/-- The freshly rendered page: all bubbles hidden, no active message, no
    pending timers. -/
def initSys (n : Nat) : BubbleSys :=
  { n := n, bubbles := fun _ => initBubble, active := none, timers := [] }

/-- Number of bubbles currently carrying the `show` class. -/
def shownCount (s : BubbleSys) : Nat :=
  (List.range s.n).countP (fun i => (s.bubbles i).shown)

/-- Fire `k` pending callbacks. -/
def flushN : Nat → BubbleSys → BubbleSys
  | 0, s => s
  | k + 1, s => flushN k (fireOne s)

/-- Fire every pending callback. -/
def flushAll (s : BubbleSys) : BubbleSys :=
  flushN s.timers.length s

/-- Quiescent run: every event's 400ms callbacks fire before the next event
    arrives (events spaced wider than the transition delay). -/
def qrun (s : BubbleSys) (evs : List BEvent) : BubbleSys :=
  evs.foldl (fun st e => flushAll (bubbleStep st e)) s

/-- Validity of an event on a page with `n` bubbles: clicks target an
    existing provider image. -/
def eventOK (n : Nat) : BEvent → Bool
  | BEvent.click i => i < n
  | BEvent.outside => true
  | BEvent.fire => true

/-- Invariant of quiescent states: no pending callbacks, and a bubble has
    the `show` class exactly when it is the tracked `activeMessage`. -/
def BubbleInv (s : BubbleSys) : Prop :=
  s.timers = [] ∧
    ∀ j : Nat, ((s.bubbles j).shown = true ↔ (s.active = some j ∧ j < s.n))

/-- The example catalog from the specification:
    `{"General": [{"name":"Zeta"},{"name":"Alpha"}], "Searching": [{"name":"Gamma"}]}`. -/
def exampleCatalog : Catalog :=
  [("General", CatValue.arr [{ name := "Zeta" }, { name := "Alpha" }]),
   ("Searching", CatValue.arr [{ name := "Gamma" }])]

/-! ## Theme theorems (C5, C6, C7) -/

/-- C5: for every theme string outside `{light, dark}`, `setTheme` is a no-op:
    the persisted preference, the body's theme attribute, the current-theme
    field and the buttons are all unchanged. -/
theorem setTheme_invalid_noop (theme : String) (st : ThemeState)
    (h1 : theme ≠ "light") (h2 : theme ≠ "dark") :
    setTheme theme st = st := by
  unfold setTheme
  rw [if_neg]
  rintro (h | h)
  · exact h1 h
  · exact h2 h

/-- C5 witness: `setTheme "contrast-light"` leaves a concrete state intact. -/
theorem setTheme_invalid_noop_witness :
    setTheme "contrast-light"
      { currentTheme := "dark", bodyTheme := "dark", stored := some "dark",
        buttons := [{ id := "darkMode", active := true }] } =
      { currentTheme := "dark", bodyTheme := "dark", stored := some "dark",
        buttons := [{ id := "darkMode", active := true }] } :=
  setTheme_invalid_noop "contrast-light" _ (by decide) (by decide)

/-- C6 counterexample: the persisted value `""` is a persisted string value,
    yet `resolveInitial` does not return it and the OS signal is consulted
    (the JS `||` treats `""` as absent). -/
theorem resolveInitial_empty_stored_uses_os :
    resolveInitial (some "") true = "dark" ∧
    resolveInitial (some "") false = "light" ∧
    resolveInitial (some "") true ≠ "" := by
  refine ⟨rfl, rfl, ?_⟩
  decide

/-- C6 (amended): `resolveInitial` returns the persisted preference whenever a
    non-empty one is present, ignoring the OS signal; when no preference is
    persisted (or the persisted value is the empty string) it returns dark
    exactly when the OS signal indicates dark, and light otherwise. -/
theorem resolveInitial_spec (stored : Option String) (osDark : Bool) :
    (∀ s, stored = some s → s ≠ "" → resolveInitial stored osDark = s) ∧
    (stored = none ∨ stored = some "" →
      resolveInitial stored osDark = (if osDark then "dark" else "light")) := by
  constructor
  · rintro s rfl hs
    simp [resolveInitial, jsOrString, hs]
  · rintro (rfl | rfl) <;> simp [resolveInitial, jsOrString, getSystemTheme]

/-- C6 witness: a stored non-empty preference wins over a dark OS signal, and
    an absent preference defers to the OS signal. -/
theorem resolveInitial_spec_witness :
    resolveInitial (some "light") true = "light" ∧
    resolveInitial none true = (if true then "dark" else "light") :=
  ⟨(resolveInitial_spec (some "light") true).1 "light" rfl (by decide),
   (resolveInitial_spec none true).2 (Or.inl rfl)⟩

/-- C7 counterexample: for a theme with no mapping (`"contrast-light"`),
    `updateActiveButton` still strips the `active` class from every control,
    so a previously active control is changed — the call is not a no-op. -/
theorem updateActiveButton_unmapped_touches_controls :
    updateActiveButton "contrast-light" [{ id := "lightMode", active := true }] ≠
      [{ id := "lightMode", active := true }] := by
  decide

theorem clearActive_inactive (btns : List ThemeBtn) :
    ∀ b ∈ clearActive btns, b.active = false := by
  intro b hb
  simp only [clearActive, List.mem_map] at hb
  obtain ⟨a, -, rfl⟩ := hb
  rfl

theorem clearActive_ids (btns : List ThemeBtn) :
    (clearActive btns).map (fun b => b.id) = btns.map (fun b => b.id) := by
  induction btns with
  | nil => rfl
  | cons b t ih =>
    simp only [clearActive, List.map_cons] at ih ⊢
    exact congrArg _ ih

theorem activateFirst_countP (tid : String) (l : List ThemeBtn)
    (h : ∀ b ∈ l, b.active = false) :
    (activateFirst tid l).countP (fun b => b.active) =
      if tid ∈ l.map (fun b => b.id) then 1 else 0 := by
  induction l with
  | nil => simp [activateFirst]
  | cons b t ih =>
    have hb : b.active = false := h b (List.mem_cons_self b t)
    have ht : ∀ x ∈ t, x.active = false := fun x hx => h x (List.mem_cons_of_mem _ hx)
    have htz : t.countP (fun x => x.active) = 0 :=
      List.countP_eq_zero.mpr (by intro a ha; simp [ht a ha])
    by_cases hid : b.id = tid
    · simp [activateFirst, hid, List.countP_cons, htz]
    · simp only [activateFirst, if_neg hid, List.countP_cons, ih ht, hb, List.map_cons,
        List.mem_cons]
      have : ¬ tid = b.id := fun hh => hid hh.symm
      simp [this]

theorem activateFirst_active_id (tid : String) (l : List ThemeBtn)
    (h : ∀ b ∈ l, b.active = false) :
    ∀ b ∈ activateFirst tid l, b.active = true → b.id = tid := by
  induction l with
  | nil => intro b hb; simp [activateFirst] at hb
  | cons a t ih =>
    have ha : a.active = false := h a (List.mem_cons_self a t)
    have ht : ∀ x ∈ t, x.active = false := fun x hx => h x (List.mem_cons_of_mem _ hx)
    intro b hb hact
    by_cases hid : a.id = tid
    · simp only [activateFirst, if_pos hid, List.mem_cons] at hb
      rcases hb with rfl | hb
      · exact hid
      · exact absurd hact (by simp [ht b hb])
    · simp only [activateFirst, if_neg hid, List.mem_cons] at hb
      rcases hb with rfl | hb
      · exact absurd hact (by simp [ha])
      · exact ih ht b hb hact

/-- C7 (amended): after `updateActiveButton`, when the current theme has a
    mapping, exactly one control carries the active indicator when the mapped
    control exists (zero when it does not), and every active control is the
    mapped one; when the theme has no mapping, no control carries the active
    indicator afterwards — the call clears every indicator rather than
    leaving the controls untouched. -/
theorem updateActiveButton_spec (theme : String) (btns : List ThemeBtn) :
    ((updateActiveButton theme btns).countP (fun b => b.active) =
      match themeMap theme with
      | some tid => if tid ∈ btns.map (fun b => b.id) then 1 else 0
      | none => 0) ∧
    (∀ b ∈ updateActiveButton theme btns, b.active = true → themeMap theme = some b.id) := by
  constructor
  · unfold updateActiveButton
    cases hm : themeMap theme with
    | none =>
      simp only []
      exact List.countP_eq_zero.mpr (by
        intro b hb
        simp [clearActive_inactive btns b hb])
    | some tid =>
      simp only []
      rw [activateFirst_countP tid (clearActive btns) (clearActive_inactive btns),
        clearActive_ids]
  · intro b hb hact
    unfold updateActiveButton at hb
    cases hm : themeMap theme with
    | none =>
      rw [hm] at hb
      exact absurd hact (by simp [clearActive_inactive btns b hb])
    | some tid =>
      rw [hm] at hb
      rw [activateFirst_active_id tid (clearActive btns) (clearActive_inactive btns) b hb hact]

/-- C7 witness: on `[lightMode (inactive), darkMode (active)]` with theme
    `light`, exactly one control ends active, and the active control is the
    mapped `lightMode` one. -/
theorem updateActiveButton_spec_witness :
    (updateActiveButton "light"
        [{ id := "lightMode", active := false }, { id := "darkMode", active := true }]).countP
      (fun b => b.active) = 1 ∧
    themeMap "light" = some "lightMode" := by
  have h := updateActiveButton_spec "light"
    [{ id := "lightMode", active := false }, { id := "darkMode", active := true }]
  refine ⟨?_, h.2 { id := "lightMode", active := true } (by decide) rfl⟩
  rw [h.1]
  decide

/-- C2 (code bug): `createServiceCard` interpolates `service.name` unescaped
    into the image `alt` attribute, so a name containing markup characters
    appears raw in the produced markup — here the raw substring `<script>`
    occurs in the card HTML, while a correctly escaped occurrence of that
    name could contain no `<` at all (second conjunct). -/
theorem cardHtml_name_unescaped_in_alt :
    hasSub "<script>".data
      (cardHtml { name := "<script>", img := some "x.png" } "General" "d1").data = true ∧
    (escapeHtml "<script>").data.contains '<' = false := by
  constructor
  · decide
  · decide

/-! ## Rendering helper lemmas -/

theorem charLE_total : ∀ s t : List Char, (charLE s t || charLE t s) = true
  | [], t => by cases t <;> simp [charLE]
  | a :: s, [] => by simp [charLE]
  | a :: s, b :: t => by
    simp only [charLE]
    by_cases hab : a.toNat < b.toNat
    · simp [hab]
    · by_cases hba : b.toNat < a.toNat
      · simp [hab, hba]
      · simp only [if_neg hab, if_neg hba]
        exact charLE_total s t

theorem charLE_trans :
    ∀ s t u : List Char, charLE s t = true → charLE t u = true → charLE s u = true
  | [], _, _, _, _ => rfl
  | a :: s, [], u, hst, _ => by simp [charLE] at hst
  | a :: s, b :: t, [], _, htu => by simp [charLE] at htu
  | a :: s, b :: t, c :: u, hst, htu => by
    simp only [charLE] at hst htu ⊢
    by_cases hab : a.toNat < b.toNat
    · by_cases hbc : b.toNat < c.toNat
      · have hac : a.toNat < c.toNat := Nat.lt_trans hab hbc
        simp [hac]
      · by_cases hcb : c.toNat < b.toNat
        · simp [hbc, hcb] at htu
        · have hbceq : b.toNat = c.toNat :=
            Nat.le_antisymm (Nat.le_of_not_lt hcb) (Nat.le_of_not_lt hbc)
          have hac : a.toNat < c.toNat := hbceq ▸ hab
          simp [hac]
    · by_cases hba : b.toNat < a.toNat
      · simp [hab, hba] at hst
      · have habeq : a.toNat = b.toNat :=
          Nat.le_antisymm (Nat.le_of_not_lt hba) (Nat.le_of_not_lt hab)
        simp only [if_neg hab, if_neg hba] at hst
        by_cases hbc : b.toNat < c.toNat
        · have hac : a.toNat < c.toNat := habeq ▸ hbc
          simp [hac]
        · by_cases hcb : c.toNat < b.toNat
          · simp [hbc, hcb] at htu
          · have hbceq : b.toNat = c.toNat :=
              Nat.le_antisymm (Nat.le_of_not_lt hcb) (Nat.le_of_not_lt hbc)
            simp only [if_neg hbc, if_neg hcb] at htu
            have hac : ¬ a.toNat < c.toNat := by omega
            have hca : ¬ c.toNat < a.toNat := by omega
            simp only [if_neg hac, if_neg hca]
            exact charLE_trans s t u hst htu

theorem strLE_total : ∀ a b : String, (strLE a b || strLE b a) = true :=
  fun a b => charLE_total a.data b.data

theorem strLE_trans : ∀ a b c : String, strLE a b = true → strLE b c = true → strLE a c = true :=
  fun a b c hab hbc => charLE_trans a.data b.data c.data hab hbc

theorem allEntries_cons (p : String × CatValue) (t : Catalog) :
    allEntries (p :: t) =
      (match p.2 with
       | CatValue.arr l => l.map (fun svc => (svc, p.1))
       | CatValue.nonArray => []) ++ allEntries t := rfl

theorem pushEntries_eq (category : String) (l : List ServiceRecord) :
    ∀ m s : List Entry,
      pushEntries category l (m, s) =
        if category = "Searching" then (m, s ++ l.map (fun svc => (svc, category)))
        else (m ++ l.map (fun svc => (svc, category)), s) := by
  induction l with
  | nil =>
    intro m s
    by_cases h : category = "Searching" <;> simp [pushEntries, h]
  | cons svc t ih =>
    intro m s
    by_cases h : category = "Searching"
    · have step : pushEntries category (svc :: t) (m, s) =
          pushEntries category t (m, s ++ [(svc, category)]) := by
        simp [pushEntries, h]
      rw [step, ih, if_pos h, if_pos h]
      simp
    · have step : pushEntries category (svc :: t) (m, s) =
          pushEntries category t (m ++ [(svc, category)], s) := by
        simp [pushEntries, h]
      rw [step, ih, if_neg h, if_neg h]
      simp

theorem filter_map_pair_true (p : Entry → Bool) (cat : String) (l : List ServiceRecord)
    (h : ∀ svc : ServiceRecord, p (svc, cat) = true) :
    (l.map (fun svc => (svc, cat))).filter p = l.map (fun svc => (svc, cat)) := by
  induction l with
  | nil => rfl
  | cons a t ih => simp [h, ih]

theorem filter_map_pair_false (p : Entry → Bool) (cat : String) (l : List ServiceRecord)
    (h : ∀ svc : ServiceRecord, p (svc, cat) = false) :
    (l.map (fun svc => (svc, cat))).filter p = [] := by
  induction l with
  | nil => rfl
  | cons a t ih => simp [h, ih]

theorem splitServices_go (c : Catalog) :
    ∀ m s : List Entry,
      c.foldl (fun acc p =>
        match p.2 with
        | CatValue.arr l => pushEntries p.1 l acc
        | CatValue.nonArray => acc) (m, s) =
      (m ++ (allEntries c).filter (fun e => !(e.2 == "Searching")),
       s ++ (allEntries c).filter (fun e => e.2 == "Searching")) := by
  induction c with
  | nil => intro m s; simp [allEntries]
  | cons p t ih =>
    intro m s
    cases hv : p.2 with
    | nonArray =>
      simp only [List.foldl_cons, hv, allEntries_cons]
      rw [ih]
      simp
    | arr l =>
      simp only [List.foldl_cons, hv, allEntries_cons]
      rw [pushEntries_eq]
      by_cases hp : p.1 = "Searching"
      · rw [if_pos hp, ih]
        rw [List.filter_append, List.filter_append]
        rw [filter_map_pair_false (fun e => !(e.2 == "Searching")) p.1 l
            (by intro svc; simp [hp]),
          filter_map_pair_true (fun e => e.2 == "Searching") p.1 l
            (by intro svc; simp [hp])]
        simp
      · rw [if_neg hp, ih]
        rw [List.filter_append, List.filter_append]
        rw [filter_map_pair_true (fun e => !(e.2 == "Searching")) p.1 l
            (by intro svc; simp [hp]),
          filter_map_pair_false (fun e => e.2 == "Searching") p.1 l
            (by intro svc; simp [hp])]
        simp

theorem splitServices_eq (c : Catalog) :
    splitServices c =
      ((allEntries c).filter (fun e => !(e.2 == "Searching")),
       (allEntries c).filter (fun e => e.2 == "Searching")) := by
  have h := splitServices_go c [] []
  simpa [splitServices] using h

theorem splitServices_fst (c : Catalog) :
    (splitServices c).1 = (allEntries c).filter (fun e => !(e.2 == "Searching")) := by
  rw [splitServices_eq]

theorem splitServices_snd (c : Catalog) :
    (splitServices c).2 = (allEntries c).filter (fun e => e.2 == "Searching") := by
  rw [splitServices_eq]

theorem cardsOf_map_entryCard (l : List Entry) : cardsOf (l.map entryCard) = l := by
  induction l with
  | nil => rfl
  | cons e t ih =>
    simp only [List.map_cons, cardsOf, List.filterMap_cons, entryCard]
    simp only [cardsOf] at ih
    rw [ih]

theorem searchingGroup_nil_iff (le : String → String → Bool) (c : Catalog) :
    searchingGroup le c = [] ↔ (splitServices c).2 = [] := by
  have hlen : (List.mergeSort (splitServices c).2 (nameLE le)).length =
      (splitServices c).2.length := List.length_mergeSort _
  unfold searchingGroup
  constructor
  · intro h
    rw [h] at hlen
    exact List.eq_nil_of_length_eq_zero hlen.symm
  · intro h
    rw [h]
    exact List.mergeSort_nil

theorem renderList_eq (le : String → String → Bool) (c : Catalog) :
    renderList le c =
      (mainGroup le c).map entryCard ++
        (if searchingGroup le c = [] then []
         else RenderItem.sectionBreak :: (searchingGroup le c).map entryCard) := by
  unfold renderList
  by_cases h2 : (splitServices c).2 = []
  · have hS : searchingGroup le c = [] := (searchingGroup_nil_iff le c).mpr h2
    rw [h2, if_pos hS]
    simp
  · have hS : searchingGroup le c ≠ [] := fun h => h2 ((searchingGroup_nil_iff le c).mp h)
    have hlen : (splitServices c).2.length > 0 := List.length_pos.mpr h2
    rw [if_pos hlen, if_neg hS]

theorem cardsOf_append (a b : List RenderItem) :
    cardsOf (a ++ b) = cardsOf a ++ cardsOf b := by
  simp [cardsOf, List.filterMap_append]

theorem cardsOf_break_cons (items : List RenderItem) :
    cardsOf (RenderItem.sectionBreak :: items) = cardsOf items := by
  simp [cardsOf, List.filterMap_cons]

theorem cardsOf_renderList (le : String → String → Bool) (c : Catalog) :
    cardsOf (renderList le c) = mainGroup le c ++ searchingGroup le c := by
  rw [renderList_eq]
  by_cases hS : searchingGroup le c = []
  · rw [if_pos hS, hS]
    simp only [List.append_nil, cardsOf_map_entryCard]
  · rw [if_neg hS, cardsOf_append, cardsOf_break_cons, cardsOf_map_entryCard,
      cardsOf_map_entryCard]

/-! ## Rendering theorems (C1, C8, C10, C4) -/

/-- C1: for every catalog, rendering partitions the records into the
    `Searching` group and all other records with no drop or duplication
    (the rendered cards are a permutation of the catalog's records, split as
    a permutation of each filter), each group is ordered by the locale-aware
    comparator, the main group is rendered first, and the section-break
    marker appears exactly once — between the two groups — iff the searching
    group is non-empty. -/
theorem renderList_partition (le : String → String → Bool)
    (htrans : ∀ a b c : String, le a b = true → le b c = true → le a c = true)
    (htotal : ∀ a b : String, (le a b || le b a) = true)
    (c : Catalog) :
    ∃ A S : List Entry,
      renderList le c =
        A.map entryCard ++
          (if S = [] then [] else RenderItem.sectionBreak :: S.map entryCard) ∧
      List.Perm A ((allEntries c).filter (fun e => !(e.2 == "Searching"))) ∧
      List.Perm S ((allEntries c).filter (fun e => e.2 == "Searching")) ∧
      List.Perm (cardsOf (renderList le c)) (allEntries c) ∧
      A.Pairwise (fun a b => le a.1.name b.1.name = true) ∧
      S.Pairwise (fun a b => le a.1.name b.1.name = true) := by
  have transE : ∀ x y z : Entry, nameLE le x y → nameLE le y z → nameLE le x z :=
    fun x y z hxy hyz => htrans _ _ _ hxy hyz
  have totalE : ∀ x y : Entry, nameLE le x y || nameLE le y x :=
    fun x y => htotal _ _
  have hpermA : List.Perm (mainGroup le c)
      ((allEntries c).filter (fun e => !(e.2 == "Searching"))) := by
    have h : List.Perm (mainGroup le c) (splitServices c).1 :=
      List.mergeSort_perm (splitServices c).1 (nameLE le)
    rw [splitServices_fst] at h
    exact h
  have hpermS : List.Perm (searchingGroup le c)
      ((allEntries c).filter (fun e => e.2 == "Searching")) := by
    have h : List.Perm (searchingGroup le c) (splitServices c).2 :=
      List.mergeSort_perm (splitServices c).2 (nameLE le)
    rw [splitServices_snd] at h
    exact h
  refine ⟨mainGroup le c, searchingGroup le c, renderList_eq le c, hpermA, hpermS, ?_, ?_, ?_⟩
  · rw [cardsOf_renderList]
    have hs : List.Perm
        ((allEntries c).filter (fun e => !(e.2 == "Searching")) ++
          (allEntries c).filter (fun e => e.2 == "Searching"))
        (allEntries c) :=
      List.Perm.trans (List.perm_append_comm)
        (List.filter_append_perm (fun e => e.2 == "Searching") (allEntries c))
    exact List.Perm.trans (List.Perm.append hpermA hpermS) hs
  · exact List.sorted_mergeSort transE totalE (splitServices c).1
  · exact List.sorted_mergeSort transE totalE (splitServices c).2

/-- C8: within each rendered group the card order is non-decreasing under the
    locale-aware comparator, and any two records whose names compare equal
    keep their relative order from the input catalog (per-group stability of
    the sort). -/
theorem renderGroups_sorted_stable (le : String → String → Bool)
    (htrans : ∀ a b c : String, le a b = true → le b c = true → le a c = true)
    (htotal : ∀ a b : String, (le a b || le b a) = true)
    (c : Catalog) :
    (mainGroup le c).Pairwise (fun a b => le a.1.name b.1.name = true) ∧
    (searchingGroup le c).Pairwise (fun a b => le a.1.name b.1.name = true) ∧
    (∀ x y : Entry,
      List.Sublist [x, y] ((allEntries c).filter (fun e => !(e.2 == "Searching"))) →
      le x.1.name y.1.name = true → le y.1.name x.1.name = true →
      List.Sublist [x, y] (mainGroup le c)) ∧
    (∀ x y : Entry,
      List.Sublist [x, y] ((allEntries c).filter (fun e => e.2 == "Searching")) →
      le x.1.name y.1.name = true → le y.1.name x.1.name = true →
      List.Sublist [x, y] (searchingGroup le c)) := by
  have transE : ∀ x y z : Entry, nameLE le x y → nameLE le y z → nameLE le x z :=
    fun x y z hxy hyz => htrans _ _ _ hxy hyz
  have totalE : ∀ x y : Entry, nameLE le x y || nameLE le y x :=
    fun x y => htotal _ _
  refine ⟨List.sorted_mergeSort transE totalE (splitServices c).1,
    List.sorted_mergeSort transE totalE (splitServices c).2, ?_, ?_⟩
  · intro x y hsub hxy _
    have hsub' : List.Sublist [x, y] (splitServices c).1 := by
      rw [splitServices_fst]
      exact hsub
    exact List.pair_sublist_mergeSort transE totalE hxy hsub'
  · intro x y hsub hxy _
    have hsub' : List.Sublist [x, y] (splitServices c).2 := by
      rw [splitServices_snd]
      exact hsub
    exact List.pair_sublist_mergeSort transE totalE hxy hsub'

theorem allEntries_nil_of_vacuous (c : Catalog)
    (h : ∀ p ∈ c, p.2 = CatValue.nonArray ∨ p.2 = CatValue.arr []) :
    allEntries c = [] := by
  induction c with
  | nil => rfl
  | cons p t ih =>
    rw [allEntries_cons]
    rcases h p (List.mem_cons_self p t) with hv | hv <;>
      rw [hv] <;>
      simp [ih (fun q hq => h q (List.mem_cons_of_mem _ hq))]

/-- C10: a catalog with at least one category key whose values are all empty
    arrays or non-arrays renders zero cards and neither placeholder: the grid
    content is the empty card list, not the empty-state or error state, since
    the empty check only counts keys. -/
theorem renderOutcome_vacuous (le : String → String → Bool) (c : Catalog)
    (h1 : c ≠ [])
    (h2 : ∀ p ∈ c, p.2 = CatValue.nonArray ∨ p.2 = CatValue.arr []) :
    renderOutcome le c = GridState.content [] ∧
    renderOutcome le c ≠ GridState.emptyState ∧
    renderOutcome le c ≠ GridState.errorState := by
  have hae : allEntries c = [] := allEntries_nil_of_vacuous c h2
  have hsplit : splitServices c = ([], []) := by
    rw [splitServices_eq, hae]
    rfl
  have hrl : renderList le c = [] := by
    rw [renderList_eq]
    have hmg : mainGroup le c = [] := by
      unfold mainGroup
      rw [hsplit]
      exact List.mergeSort_nil
    have hsg : searchingGroup le c = [] := by
      unfold searchingGroup
      rw [hsplit]
      exact List.mergeSort_nil
    rw [hmg, hsg, if_pos rfl]
    rfl
  have hlen : ¬ c.length = 0 := fun h => h1 (List.eq_nil_of_length_eq_zero h)
  have hout : renderOutcome le c = GridState.content [] := by
    rw [renderOutcome, if_neg hlen, hrl]
  refine ⟨hout, ?_, ?_⟩ <;> rw [hout] <;> intro h <;> exact GridState.noConfusion h

/-- C10 witness: the one-key catalog `{"General": []}` renders the blank
    content state. -/
theorem renderOutcome_vacuous_witness :
    renderOutcome strLE [("General", CatValue.arr [])] = GridState.content [] :=
  (renderOutcome_vacuous strLE [("General", CatValue.arr [])] (by decide)
    (by intro p hp; simp at hp; rw [hp]; exact Or.inr rfl)).1

/-- C4: for every load outcome, `init` dismisses the loading indicator; a
    load failure (transport error, non-ok status, or malformed JSON body,
    all of which reach the single catch) yields exactly the error-placeholder
    grid with zero cards; a successful load of an empty catalog yields the
    no-services placeholder instead. The catch means no error escapes the
    load-render boundary: `initRun` is total. -/
theorem initRun_spec (le : String → String → Bool) (load : Except Unit Catalog) :
    (initRun le load).loadingDismissed = true ∧
    (∀ e : Unit, load = Except.error e →
      (initRun le load).grid = GridState.errorState ∧
      cardCount (initRun le load).grid = 0) ∧
    (load = Except.ok ([] : Catalog) → (initRun le load).grid = GridState.emptyState) := by
  cases load with
  | error e =>
    refine ⟨rfl, fun _ _ => ⟨rfl, rfl⟩, fun h => ?_⟩
    exact Except.noConfusion h
  | ok cat =>
    refine ⟨rfl, fun e h => Except.noConfusion h, fun h => ?_⟩
    have hc : cat = [] := by
      injection h
    subst hc
    simp [initRun, renderOutcome]

/-- C4 witness: a failed load yields the error placeholder with the loader
    dismissed and no cards; `ok` with the empty catalog yields the
    no-services placeholder. -/
theorem initRun_spec_witness :
    (initRun strLE (Except.error ())).grid = GridState.errorState ∧
    cardCount (initRun strLE (Except.error ())).grid = 0 ∧
    (initRun strLE (Except.error ())).loadingDismissed = true ∧
    (initRun strLE (Except.ok ([] : Catalog))).grid = GridState.emptyState :=
  have h1 := initRun_spec strLE (Except.error ())
  have h2 := initRun_spec strLE (Except.ok ([] : Catalog))
  ⟨(h1.2.1 () rfl).1, (h1.2.1 () rfl).2, h1.1, h2.2.2 rfl⟩

/-- C1 witness: the partition theorem instantiated with the code-point
    comparator on the specification's example catalog, together with the
    concrete rendered order Alpha, Zeta, section break, Gamma. -/
theorem renderList_partition_witness :
    (∃ A S : List Entry,
      renderList strLE exampleCatalog =
        A.map entryCard ++
          (if S = [] then [] else RenderItem.sectionBreak :: S.map entryCard) ∧
      List.Perm A ((allEntries exampleCatalog).filter (fun e => !(e.2 == "Searching"))) ∧
      List.Perm S ((allEntries exampleCatalog).filter (fun e => e.2 == "Searching")) ∧
      List.Perm (cardsOf (renderList strLE exampleCatalog)) (allEntries exampleCatalog) ∧
      A.Pairwise (fun a b => strLE a.1.name b.1.name = true) ∧
      S.Pairwise (fun a b => strLE a.1.name b.1.name = true)) ∧
    renderList strLE exampleCatalog =
      [entryCard ({ name := "Alpha" }, "General"), entryCard ({ name := "Zeta" }, "General"),
       RenderItem.sectionBreak, entryCard ({ name := "Gamma" }, "Searching")] := by
  refine ⟨renderList_partition strLE strLE_trans strLE_total exampleCatalog, ?_⟩
  simp +decide [renderList, mainGroup, searchingGroup, splitServices, pushEntries,
    exampleCatalog, nameLE, strLE, charLE, entryCard, List.mergeSort, List.merge]

/-- C8 witness: two records with the compare-equal name `A` keep their
    catalog order inside the rendered main group. -/
theorem renderGroups_sorted_stable_witness :
    List.Sublist
      [({ name := "A", description := some "first" }, "General"),
       ({ name := "A", description := some "second" }, "General")]
      (mainGroup strLE [("General", CatValue.arr
        [{ name := "A", description := some "first" },
         { name := "A", description := some "second" }])]) := by
  apply (renderGroups_sorted_stable strLE strLE_trans strLE_total
    [("General", CatValue.arr
      [{ name := "A", description := some "first" },
       { name := "A", description := some "second" }])]).2.2.1
  · decide
  · decide
  · decide

/-! ## Sub-item lookup theorems (C9) -/

theorem foldl_override {α β : Type} (P : α → Prop) [DecidablePred P] (F : α → β) :
    ∀ (l : List α) (a : β),
      l.foldl (fun acc e => if P e then F e else acc) a =
        (match (l.filter (fun e => decide (P e))).getLast? with
         | some e => F e
         | none => a) := by
  intro l
  induction l with
  | nil => intro a; rfl
  | cons x t ih =>
    intro a
    rw [List.foldl_cons]
    by_cases hx : P x
    · rw [if_pos hx, ih, List.filter_cons_of_pos (by simpa using hx), List.getLast?_cons]
      cases hlast : (t.filter (fun e => decide (P e))).getLast? with
      | none => simp [hlast]
      | some e => simp [hlast]
    · rw [if_neg hx, ih, List.filter_cons_of_neg (by simpa using hx)]

theorem findSelectedSubItem_entries (c : Catalog) (n v : String) :
    ∀ acc : Option SubItem,
      c.foldl (fun acc p =>
        match p.2 with
        | CatValue.arr l =>
          l.foldl (fun acc2 svc =>
            if svc.name = n ∧ svc.sub_items.isSome then
              (svc.sub_items.getD []).find? (fun item => item.name == v)
            else acc2) acc
        | CatValue.nonArray => acc) acc =
      (allEntries c).foldl (fun acc2 e =>
        if e.1.name = n ∧ e.1.sub_items.isSome then
          (e.1.sub_items.getD []).find? (fun item => item.name == v)
        else acc2) acc := by
  induction c with
  | nil => intro acc; rfl
  | cons p t ih =>
    intro acc
    cases hv : p.2 with
    | nonArray =>
      simp only [List.foldl_cons, hv, allEntries_cons]
      rw [ih]
      rfl
    | arr l =>
      simp only [List.foldl_cons, hv, allEntries_cons, List.foldl_append]
      rw [ih]
      congr 1
      rw [List.foldl_map]

theorem findSelectedSubItem_eq (c : Catalog) (n v : String) :
    findSelectedSubItem c n v =
      (match (qualifying c n).getLast? with
       | some e => (e.1.sub_items.getD []).find? (fun item => item.name == v)
       | none => none) := by
  have hfilter : qualifying c n =
      (allEntries c).filter
        (fun e => decide (e.1.name = n ∧ e.1.sub_items.isSome = true)) := by
    unfold qualifying
    apply List.filter_congr
    intro e _
    by_cases h1 : e.1.name = n <;> by_cases h2 : e.1.sub_items.isSome = true <;>
      simp [h1, h2]
  unfold findSelectedSubItem
  rw [findSelectedSubItem_entries c n v none,
    foldl_override (fun e : Entry => e.1.name = n ∧ e.1.sub_items.isSome = true)
      (fun e : Entry => (e.1.sub_items.getD []).find? (fun item => item.name == v))
      (allEntries c) none,
    hfilter]
  cases ((allEntries c).filter
      (fun e => decide (e.1.name = n ∧ e.1.sub_items.isSome = true))).getLast? <;> rfl

/-- C9: when several catalog records share the selected card's name, the
    drawer is determined by the record occurring LAST in catalog iteration
    order (last category, last position) among those having `sub_items`: the
    re-scan overwrites `selectedSubItem` at each qualifying record, so all
    earlier same-named records are shadowed. -/
theorem dropdownChange_last_wins (c : Catalog) (n v : String) (hv : v ≠ "") :
    dropdownChange c n v =
      (match (qualifying c n).getLast? with
       | some e =>
         (match (e.1.sub_items.getD []).find? (fun item => item.name == v) with
          | some item => DrawerResult.populated item.name item.description
          | none => DrawerResult.hidden)
       | none => DrawerResult.hidden) := by
  unfold dropdownChange
  rw [findSelectedSubItem_eq]
  cases (qualifying c n).getLast? with
  | none => rfl
  | some e => simp [hv]

/-- C9 witness: two records named `Alpha`, each with a sub-item `t1`; the
    drawer text comes from the later record (description `d2`), shadowing
    the earlier one. -/
theorem dropdownChange_last_wins_witness :
    dropdownChange
      [("General", CatValue.arr [{ name := "Alpha", sub_items := some [⟨"t1", "d1"⟩] }]),
       ("Onyx", CatValue.arr [{ name := "Alpha", sub_items := some [⟨"t1", "d2"⟩] }])]
      "Alpha" "t1" = DrawerResult.populated "t1" "d2" := by
  rw [dropdownChange_last_wins _ _ _ (by decide)]
  decide

/-! ## Provider-bubble theorems (C3) -/

/-- C3 counterexample: with the 400ms timers modelled as steps, a rapid
    double click on bubble 0 (second click before the first 400ms callback
    fires) leaves a stale show-callback; after it fires, bubble 0 carries
    `show` while `activeMessage` is null, so a later click on bubble 1 puts
    TWO bubbles in the shown state at once — the claimed invariant fails. -/
theorem two_bubbles_shown_simultaneously :
    shownCount (runBubbles (initSys 2)
      [BEvent.click 0, BEvent.click 0, BEvent.fire, BEvent.fire,
       BEvent.click 1, BEvent.fire]) = 2 ∧
    ¬ shownCount (runBubbles (initSys 2)
      [BEvent.click 0, BEvent.click 0, BEvent.fire, BEvent.fire,
       BEvent.click 1, BEvent.fire]) ≤ 1 := by
  constructor
  · decide
  · decide

theorem fireOne_timers_nil (s : BubbleSys) (h : s.timers = []) : fireOne s = s := by
  unfold fireOne
  rw [h]

theorem flushAll_timers_nil (s : BubbleSys) (h : s.timers = []) : flushAll s = s := by
  unfold flushAll
  rw [h]
  rfl

theorem qstep_inv (s : BubbleSys) (e : BEvent)
    (hOK : eventOK s.n e = true) (hInv : BubbleInv s) :
    BubbleInv (flushAll (bubbleStep s e)) ∧ (flushAll (bubbleStep s e)).n = s.n := by
  obtain ⟨hT, hB⟩ := hInv
  cases e with
  | fire =>
    have h1 : bubbleStep s BEvent.fire = s := fireOne_timers_nil s hT
    rw [h1, flushAll_timers_nil s hT]
    exact ⟨⟨hT, hB⟩, rfl⟩
  | outside =>
    cases ha : s.active with
    | none =>
      have h1 : bubbleStep s BEvent.outside = s := by
        show outsideClick s = s
        unfold outsideClick
        rw [ha]
      rw [h1, flushAll_timers_nil s hT]
      exact ⟨⟨hT, hB⟩, rfl⟩
    | some j =>
      have h1 : bubbleStep s BEvent.outside =
          { n := s.n
            bubbles := updB j (fun b => { b with shown := false, flowIn := true }) s.bubbles
            active := none
            timers := [TimerAct.hideFire j] } := by
        show outsideClick s = _
        simp only [outsideClick, ha, hideMsg, hT, List.nil_append]
      rw [h1]
      have h2 : flushAll
          { n := s.n
            bubbles := updB j (fun b => { b with shown := false, flowIn := true }) s.bubbles
            active := none
            timers := [TimerAct.hideFire j] } =
          { n := s.n
            bubbles := updB j (fun b => { b with flowIn := false })
              (updB j (fun b => { b with shown := false, flowIn := true }) s.bubbles)
            active := none
            timers := [] } := rfl
      rw [h2]
      refine ⟨⟨rfl, ?_⟩, rfl⟩
      intro k
      simp only [updB]
      by_cases hk : k = j
      · subst hk
        simp
      · have hf : (s.bubbles k).shown = false := by
          cases hsh : (s.bubbles k).shown
          · rfl
          · have hmem := (hB k).mp hsh
            rw [ha] at hmem
            exact absurd (Option.some.inj hmem.1) (fun hjk => hk hjk.symm)
        simp [hk, hf]
  | click i =>
    have hOK' : i < s.n := by simpa [eventOK] using hOK
    cases ha : s.active with
    | none =>
      have h1 : bubbleStep s (BEvent.click i) =
          { n := s.n
            bubbles := updB i (fun b => { b with flowIn := false, flowOut := true }) s.bubbles
            active := some i
            timers := [TimerAct.showFire i] } := by
        show clickBubble i s = _
        simp only [clickBubble, ha, showMsg, hideMsg, hT, List.nil_append]
        simp [ha]
      rw [h1]
      have h2 : flushAll
          { n := s.n
            bubbles := updB i (fun b => { b with flowIn := false, flowOut := true }) s.bubbles
            active := some i
            timers := [TimerAct.showFire i] } =
          { n := s.n
            bubbles := updB i (fun b => { b with flowOut := false, shown := true })
              (updB i (fun b => { b with flowIn := false, flowOut := true }) s.bubbles)
            active := some i
            timers := [] } := rfl
      rw [h2]
      refine ⟨⟨rfl, ?_⟩, rfl⟩
      intro k
      simp only [updB]
      by_cases hk : k = i
      · subst hk
        simp [hOK']
      · have hf : (s.bubbles k).shown = false := by
          cases hsh : (s.bubbles k).shown
          · rfl
          · have hmem := (hB k).mp hsh
            rw [ha] at hmem
            exact Option.noConfusion hmem.1
        simp [hk, hf]
        intro hik
        exact absurd hik.symm hk
    | some j =>
      by_cases hji : j = i
      · subst hji
        have h1 : bubbleStep s (BEvent.click j) =
            { n := s.n
              bubbles := updB j (fun b => { b with shown := false, flowIn := true }) s.bubbles
              active := none
              timers := [TimerAct.hideFire j] } := by
          show clickBubble j s = _
          simp only [clickBubble, ha, showMsg, hideMsg, hT, List.nil_append]
          simp [ha, hT]
        rw [h1]
        have h2 : flushAll
            { n := s.n
              bubbles := updB j (fun b => { b with shown := false, flowIn := true }) s.bubbles
              active := none
              timers := [TimerAct.hideFire j] } =
            { n := s.n
              bubbles := updB j (fun b => { b with flowIn := false })
                (updB j (fun b => { b with shown := false, flowIn := true }) s.bubbles)
              active := none
              timers := [] } := rfl
        rw [h2]
        refine ⟨⟨rfl, ?_⟩, rfl⟩
        intro k
        simp only [updB]
        by_cases hk : k = j
        · subst hk
          simp
        · have hf : (s.bubbles k).shown = false := by
            cases hsh : (s.bubbles k).shown
            · rfl
            · have hmem := (hB k).mp hsh
              rw [ha] at hmem
              exact absurd (Option.some.inj hmem.1) (fun hjk => hk hjk.symm)
          simp [hk, hf]
      · have h1 : bubbleStep s (BEvent.click i) =
            { n := s.n
              bubbles := updB i (fun b => { b with flowIn := false, flowOut := true })
                (updB j (fun b => { b with shown := false, flowIn := true }) s.bubbles)
              active := some i
              timers := [TimerAct.hideFire j, TimerAct.showFire i] } := by
          show clickBubble i s = _
          simp only [clickBubble, ha, showMsg, hideMsg, hT, List.nil_append]
          simp [ha, hji]
        rw [h1]
        have h2 : flushAll
            { n := s.n
              bubbles := updB i (fun b => { b with flowIn := false, flowOut := true })
                (updB j (fun b => { b with shown := false, flowIn := true }) s.bubbles)
              active := some i
              timers := [TimerAct.hideFire j, TimerAct.showFire i] } =
            { n := s.n
              bubbles := updB i (fun b => { b with flowOut := false, shown := true })
                (updB j (fun b => { b with flowIn := false })
                  (updB i (fun b => { b with flowIn := false, flowOut := true })
                    (updB j (fun b => { b with shown := false, flowIn := true }) s.bubbles)))
              active := some i
              timers := [] } := rfl
        rw [h2]
        refine ⟨⟨rfl, ?_⟩, rfl⟩
        intro k
        simp only [updB]
        by_cases hk : k = i
        · subst hk
          have hij : ¬ k = j := fun h => hji h.symm
          simp [hOK', hij]
        · by_cases hkj : k = j
          · subst hkj
            simp [hk, hji]
            intro hik
            exact absurd hik.symm hk
          · have hf : (s.bubbles k).shown = false := by
              cases hsh : (s.bubbles k).shown
              · rfl
              · have hmem := (hB k).mp hsh
                rw [ha] at hmem
                exact absurd (Option.some.inj hmem.1) (fun hjk => hkj hjk.symm)
            simp [hk, hkj, hf]
            intro hik
            exact absurd hik.symm hk

theorem qrun_inv_go (evs : List BEvent) :
    ∀ s : BubbleSys, BubbleInv s → (∀ e ∈ evs, eventOK s.n e = true) →
      BubbleInv (qrun s evs) ∧ (qrun s evs).n = s.n := by
  induction evs with
  | nil => intro s hs _; exact ⟨hs, rfl⟩
  | cons e t ih =>
    intro s hs h
    have hstep := qstep_inv s e (h e (List.mem_cons_self e t)) hs
    have hrec := ih (flushAll (bubbleStep s e)) hstep.1
      (by intro e' he'; rw [hstep.2]; exact h e' (List.mem_cons_of_mem e he'))
    have hq : qrun s (e :: t) = qrun (flushAll (bubbleStep s e)) t := rfl
    rw [hq]
    exact ⟨hrec.1, hrec.2.trans hstep.2⟩

theorem countP_le_one_of_unique (p : Nat → Bool) (j : Nat) :
    ∀ l : List Nat, l.Nodup → (∀ i, p i = true → i = j) → l.countP p ≤ 1 := by
  intro l
  induction l with
  | nil => intro _ _; simp
  | cons a t ih =>
    intro hnd hp
    obtain ⟨hat, hndt⟩ := List.nodup_cons.mp hnd
    rw [List.countP_cons]
    by_cases hpa : p a = true
    · have haj : a = j := hp a hpa
      have ht0 : t.countP p = 0 := by
        apply List.countP_eq_zero.mpr
        intro x hx hpx
        have hxj : x = j := hp x hpx
        exact hat (by rw [haj, ← hxj]; exact hx)
      simp [hpa, ht0]
    · have hpa' : p a = false := by
        cases hval : p a
        · rfl
        · exact absurd hval hpa
      have := ih hndt hp
      simp [hpa']
      omega
    
theorem shownCount_le_one_of_inv (s : BubbleSys) (h : BubbleInv s) :
    shownCount s ≤ 1 := by
  unfold shownCount
  cases ha : s.active with
  | none =>
    have h0 : (List.range s.n).countP (fun i => (s.bubbles i).shown) = 0 := by
      apply List.countP_eq_zero.mpr
      intro i _ hsh
      have hmem := (h.2 i).mp hsh
      rw [ha] at hmem
      exact Option.noConfusion hmem.1
    omega
  | some j =>
    apply countP_le_one_of_unique _ j _ (List.nodup_range s.n)
    intro i hsh
    have hmem := (h.2 i).mp hsh
    rw [ha] at hmem
    exact (Option.some.inj hmem.1).symm

/-- C3 (amended): the at-most-one-shown-bubble invariant holds for every
    click sequence in which each event's 400ms callbacks have fired before
    the next event arrives (quiescent stepping). Under rapid clicking with
    pending timers the invariant is NOT maintained — a stale show-callback
    can re-show an untracked bubble (see the counterexample), so the claim's
    unconditional "any sequence including rapid successive clicks" fails. -/
theorem at_most_one_bubble_quiescent (n : Nat) (evs : List BEvent)
    (h : ∀ e ∈ evs, eventOK n e = true) :
    shownCount (qrun (initSys n) evs) ≤ 1 := by
  have hinv : BubbleInv (initSys n) := by
    constructor
    · rfl
    · intro j
      simp [initSys, initBubble]
  have hrun := qrun_inv_go evs (initSys n) hinv h
  exact shownCount_le_one_of_inv _ hrun.1

/-- C3 witness for the amended invariant: clicks on two different bubbles
    followed by an outside click, each fully settled, leave at most one
    bubble shown. -/
theorem at_most_one_bubble_quiescent_witness :
    shownCount (qrun (initSys 2) [BEvent.click 0, BEvent.click 1, BEvent.outside]) ≤ 1 :=
  at_most_one_bubble_quiescent 2 [BEvent.click 0, BEvent.click 1, BEvent.outside] (by decide)
